/-
Verification of the TF2 trading companion / marketplace backends.

The development shallowly embeds the two Python services:
  * `Watchlist` / `Pricing` — the watchlist CRUD service with the
    backpack.tf listings normalizer and stats-URL parser (main.py);
  * `Marketplace` — the trading marketplace (items, orders, wallet)
    with its order/wallet state machine (tf2-api routers).

Database tables become lists of rows inside an explicit `Store`;
each HTTP handler becomes a pure function from request data and store
to `Except HttpError` of its result.  Monetary values (Python floats
read from DECIMAL columns) are modelled as exact rationals.
-/
import Mathlib

attribute [local semireducible] Rat.mul Rat.add Rat.sub Rat.inv

/-- Python's `round(x, 2)`: round to two decimal places.  Modelled as
round-half-up on exact rationals (the tie-breaking rule is irrelevant to
every statement below, which only evaluates it away from ties). -/
def pyRound2 (q : ℚ) : ℚ := Rat.divInt (Rat.floor (q * 100 + 1/2)) 100

/-- Split a character list on a separator character, keeping empty
segments, as Python's `str.split(sep)` does. -/
def splitChar (sep : Char) : List Char → List (List Char)
  | [] => [[]]
  | c :: rest =>
    let r := splitChar sep rest
    if c = sep then [] :: r
    else
      match r with
      | [] => [[c]]
      | h :: t => (c :: h) :: t

/-- Python's `str.strip()` on a character list: drop leading and trailing
whitespace. -/
def stripChars (cs : List Char) : List Char :=
  ((cs.dropWhile Char.isWhitespace).reverse.dropWhile Char.isWhitespace).reverse

/-- Python's `str.strip()` for `String`. -/
def pyStrip (s : String) : String := String.mk (stripChars s.data)

/-- Python's `str.endswith(suffix)`. -/
def pyEndsWith (s suffix : String) : Bool := suffix.data.isSuffixOf s.data

/-- Python's `str.lower()` (ASCII, which is all the source compares). -/
def pyLower (s : String) : String := String.mk (s.data.map Char.toLower)

/-- Python's `str.isdigit()` (ASCII digits; `""` is not a digit string). -/
def pyIsDigit (s : String) : Bool := !s.data.isEmpty && s.data.all Char.isDigit

/-- Python's `int(s)` on a string of ASCII digits. -/
def digitsToNat (s : String) : Nat :=
  s.data.foldl (fun acc c => 10 * acc + (c.toNat - 48)) 0

/-- An HTTP error as raised by `fastapi.HTTPException`: a status code and
a human-readable detail message. -/
structure HttpError where
  status : Nat
  detail : String
deriving DecidableEq, Repr

namespace Watchlist

/-- The sku shape accepted by the watchlist, `^[0-9]+;[0-9]+(;[A-Za-z0-9-]+)*$`
(`SKU_PATTERN` in main.py), decided by splitting on `;`. -/
def skuMatch (s : String) : Bool :=
  match splitChar ';' s.data with
  | a :: b :: rest =>
    (!a.isEmpty && a.all Char.isDigit) &&
    (!b.isEmpty && b.all Char.isDigit) &&
    rest.all (fun seg => !seg.isEmpty && seg.all (fun c => c.isAlphanum || c = '-'))
  | _ => false

/-- Python's `"  " in v`: whether the name contains two consecutive
spaces. -/
def hasDoubleSpace : List Char → Bool
  | ' ' :: ' ' :: _ => true
  | _ :: rest => hasDoubleSpace rest
  | [] => false

/-- A validated watchlist create/update payload (`WatchlistCreate`). -/
structure WPayload where
  sku : String
  name : String
  target_price_ref : ℚ
  note : Option String
deriving DecidableEq, Repr

/-- The §3 invariants enforced by the pydantic model `WatchlistCreate`
before a payload reaches storage: sku shape and length, name length with
no double spaces, positive bounded price, bounded note. -/
def wValid (p : WPayload) : Prop :=
  skuMatch p.sku = true ∧ 3 ≤ p.sku.length ∧ p.sku.length ≤ 64 ∧
  2 ≤ p.name.length ∧ p.name.length ≤ 120 ∧
  hasDoubleSpace p.name.data = false ∧
  0 < p.target_price_ref ∧ p.target_price_ref ≤ 100000 ∧
  (match p.note with
   | some n => decide (n.length ≤ 300)
   | none => true) = true

/-- A row of the `watchlist` table. -/
structure WRow where
  id : Nat
  sku : String
  name : String
  target_price_ref : ℚ
  note : Option String
deriving DecidableEq, Repr

/-- The watchlist table plus its AUTOINCREMENT counter. -/
structure WStore where
  rows : List WRow
  next_id : Nat
deriving DecidableEq, Repr

/-- `POST /watchlist` (`create_item` in main.py): INSERT the payload; a
UNIQUE-constraint violation on sku (aiosqlite `IntegrityError`) becomes a
409; on success the row is read back by its assigned id and returned. -/
def create_item (p : WPayload) (s : WStore) : Except HttpError (WRow × WStore) :=
  if s.rows.any (fun r => r.sku == p.sku) then
    .error ⟨409, "sku already exists in watchlist"⟩
  else
    let row : WRow := ⟨s.next_id, p.sku, p.name, p.target_price_ref, p.note⟩
    .ok (row, ⟨s.rows ++ [row], s.next_id + 1⟩)

/-- `GET /watchlist/{item_id}` (`get_item` in main.py). -/
def get_item (i : Nat) (s : WStore) : Except HttpError WRow :=
  match s.rows.find? (fun r => r.id == i) with
  | none => .error ⟨404, "Watchlist item not found"⟩
  | some r => .ok r

/-- The watchlist store visible after a create request completes, whether
it succeeded or raised. -/
def storeAfterCreate (p : WPayload) (s : WStore) : WStore :=
  match create_item p s with
  | .ok (_, s') => s'
  | .error _ => s

/-- Well-formedness maintained by AUTOINCREMENT: every stored row id is
below the next id to be assigned. -/
def wWf (s : WStore) : Prop := ∀ r ∈ s.rows, r.id < s.next_id

end Watchlist

namespace Marketplace

/-- The authenticated request context decoded from the JWT by
`get_current_user` (middleware/auth.py): the calling user's id and admin
flag. -/
structure AuthUser where
  user_id : Nat
  is_admin : Bool
deriving DecidableEq, Repr

/-- A row of the `items` table. -/
structure Item where
  id : Nat
  seller_id : Nat
  name : String
  item_type : String
  price_usdt : ℚ
  quantity : Nat
  network : String
  status : String
deriving DecidableEq, Repr

/-- A row of the `orders` table. -/
structure Order where
  id : Nat
  buyer_id : Nat
  item_id : Nat
  quantity : Nat
  amount_usdt : ℚ
  network : String
  payment_address : String
  status : String
  tx_hash : Option String
deriving DecidableEq, Repr

/-- A row of the `balances` table, keyed by (user_id, token, network)
(the unique key implied by the `ON DUPLICATE KEY UPDATE` upsert in
wallet.py). -/
structure Balance where
  user_id : Nat
  token : String
  network : String
  amount : ℚ
deriving DecidableEq, Repr

/-- A row of the append-only `transactions` ledger. -/
structure Txn where
  user_id : Nat
  order_id : Option Nat
  typ : String
  amount : ℚ
  token : String
  network : String
  tx_hash : Option String
deriving DecidableEq, Repr

/-- A row of the append-only `inventory_events` log. -/
structure InvEvent where
  user_id : Nat
  item_id : Nat
  event_type : String
deriving DecidableEq, Repr

/-- The marketplace database, plus the AUTO_INCREMENT counter for
orders. -/
structure Store where
  items : List Item
  orders : List Order
  balances : List Balance
  transactions : List Txn
  inventory_events : List InvEvent
  next_order_id : Nat
deriving DecidableEq, Repr

/-- `SELECT * FROM items WHERE id = %s` (first matching row). -/
def findItem (s : Store) (i : Nat) : Option Item :=
  s.items.find? (fun it => it.id == i)

/-- `SELECT * FROM orders WHERE id = %s`. -/
def findOrder (s : Store) (i : Nat) : Option Order :=
  s.orders.find? (fun o => o.id == i)

/-- Whether a balance row has the given (user_id, token, network) key. -/
def balKey (uid : Nat) (token network : String) (b : Balance) : Bool :=
  b.user_id == uid && b.token == token && b.network == network

/-- `SELECT amount FROM balances WHERE user_id = %s AND token = %s AND
network = %s` (first matching row). -/
def findBalance (s : Store) (uid : Nat) (token network : String) : Option Balance :=
  s.balances.find? (balKey uid token network)

/-- The balance amount visible to a read, `0` when no row exists. -/
def balAmt (s : Store) (uid : Nat) (token network : String) : ℚ :=
  match findBalance s uid token network with
  | some b => b.amount
  | none => 0

/-- `VALID_TOKENS` from wallet.py. -/
def VALID_TOKENS : List String := ["USDT", "USDC"]

/-- `VALID_NETWORKS` from wallet.py and items.py. -/
def VALID_NETWORKS : List String := ["polygon", "bsc"]

/-- `VALID_STATUSES` from items.py. -/
def VALID_STATUSES : List String := ["active", "sold", "cancelled"]

/-- `EVM_ADDRESS_RE`: `^0x[0-9a-fA-F]{40}$`. -/
def evmAddressOk (s : String) : Bool :=
  match s.data with
  | '0' :: 'x' :: rest => rest.length == 40 && rest.all (fun c =>
      c.isDigit || (('a' ≤ c && c ≤ 'f') || ('A' ≤ c && c ≤ 'F')))
  | _ => false

/-- Body of `POST /v1/wallet/deposit/confirm` (`DepositConfirm`); the
pydantic gate `amount > 0` is carried as a hypothesis where needed. -/
structure DepositConfirm where
  order_id : Nat
  tx_hash : String
  amount : ℚ
  token : String
  network : String
deriving DecidableEq, Repr

/-- Body of `POST /v1/wallet/withdraw` (`WithdrawRequest`). -/
structure WithdrawRequest where
  amount : ℚ
  token : String
  network : String
  to_address : String
deriving DecidableEq, Repr

/-- Statement 1 of `confirm_deposit`:
`UPDATE orders SET status = 'paid', tx_hash = %s WHERE id = %s`. -/
def markOrderPaid (oid : Nat) (txh : String) (s : Store) : Store :=
  { s with orders := s.orders.map (fun o =>
      if o.id == oid then { o with status := "paid", tx_hash := some txh } else o) }

/-- Statement 2 of `confirm_deposit`:
`UPDATE items SET status = 'sold' WHERE id = %s`. -/
def markItemSold (iid : Nat) (s : Store) : Store :=
  { s with items := s.items.map (fun it =>
      if it.id == iid then { it with status := "sold" } else it) }

/-- Statement 3 of `confirm_deposit`: the balance upsert
`INSERT ... ON DUPLICATE KEY UPDATE amount = amount + %s` — add to the
existing row for the key, else insert a fresh row with the amount. -/
def creditBalance (uid : Nat) (token network : String) (amt : ℚ) (s : Store) : Store :=
  if s.balances.any (balKey uid token network) then
    { s with balances := s.balances.map (fun b =>
        if balKey uid token network b then { b with amount := b.amount + amt } else b) }
  else
    { s with balances := s.balances ++ [⟨uid, token, network, amt⟩] }

/-- Statement 4 of `confirm_deposit`: append the deposit ledger row. -/
def appendTxn (t : Txn) (s : Store) : Store :=
  { s with transactions := s.transactions ++ [t] }

/-- Statement 5 of `confirm_deposit`: append the inventory event. -/
def appendEvent (e : InvEvent) (s : Store) : Store :=
  { s with inventory_events := s.inventory_events ++ [e] }

/-- The five writes of `confirm_deposit` (wallet.py), in program order.
`get_db` opens the connection with `autocommit=True` and no transaction
is ever begun, so each statement commits individually as it executes. -/
def confirmDepositWrites (body : DepositConfirm) (o : Order) : List (Store → Store) :=
  [markOrderPaid o.id body.tx_hash,
   markItemSold o.item_id,
   creditBalance o.buyer_id body.token body.network body.amount,
   appendTxn ⟨o.buyer_id, some o.id, "deposit", body.amount, body.token, body.network, some body.tx_hash⟩,
   appendEvent ⟨o.buyer_id, o.item_id, "received"⟩]

/-- `POST /v1/wallet/deposit/confirm` (`confirm_deposit` in wallet.py).
Note that beyond authentication the handler never consults `user`. -/
def confirm_deposit (body : DepositConfirm) (user : AuthUser) (s : Store) :
    Except HttpError Store :=
  if ¬ body.token ∈ VALID_TOKENS then
    .error ⟨400, "token must be one of VALID_TOKENS"⟩
  else if ¬ body.network ∈ VALID_NETWORKS then
    .error ⟨400, "network must be one of VALID_NETWORKS"⟩
  else
    match findOrder s body.order_id with
    | none => .error ⟨404, "Order not found or already processed"⟩
    | some o =>
      if o.status ≠ "pending" then
        .error ⟨404, "Order not found or already processed"⟩
      else
        .ok ((confirmDepositWrites body o).foldl (fun st f => f st) s)

/-- `confirm_deposit` interrupted after its first `k` SQL statements:
because the connection autocommits per statement, a failure at that point
leaves exactly the prefix of writes visible in the database. -/
def confirm_deposit_crashAt (k : Nat) (body : DepositConfirm) (user : AuthUser)
    (s : Store) : Except HttpError Store :=
  if ¬ body.token ∈ VALID_TOKENS then
    .error ⟨400, "token must be one of VALID_TOKENS"⟩
  else if ¬ body.network ∈ VALID_NETWORKS then
    .error ⟨400, "network must be one of VALID_NETWORKS"⟩
  else
    match findOrder s body.order_id with
    | none => .error ⟨404, "Order not found or already processed"⟩
    | some o =>
      if o.status ≠ "pending" then
        .error ⟨404, "Order not found or already processed"⟩
      else
        .ok (((confirmDepositWrites body o).take k).foldl (fun st f => f st) s)

/-- `POST /v1/wallet/withdraw` (`withdraw` in wallet.py). -/
def withdraw (body : WithdrawRequest) (user : AuthUser) (s : Store) :
    Except HttpError Store :=
  if ¬ body.token ∈ VALID_TOKENS then
    .error ⟨400, "token must be one of VALID_TOKENS"⟩
  else if ¬ body.network ∈ VALID_NETWORKS then
    .error ⟨400, "network must be one of VALID_NETWORKS"⟩
  else if ¬ evmAddressOk body.to_address then
    .error ⟨400, "Invalid EVM wallet address format"⟩
  else
    match findBalance s user.user_id body.token body.network with
    | none => .error ⟨400, "Insufficient balance"⟩
    | some bal =>
      if bal.amount < body.amount then
        .error ⟨400, "Insufficient balance"⟩
      else
        .ok { s with
          balances := s.balances.map (fun b =>
            if balKey user.user_id body.token body.network b then
              { b with amount := b.amount - body.amount }
            else b),
          transactions := s.transactions ++
            [⟨user.user_id, none, "withdrawal", body.amount, body.token, body.network, none⟩] }

/-- The store visible after a withdraw request completes: unchanged when
the handler raised before its writes. -/
def storeAfterWithdraw (body : WithdrawRequest) (user : AuthUser) (s : Store) : Store :=
  match withdraw body user s with
  | .ok s' => s'
  | .error _ => s

/-- A sequence of withdrawal requests run against the store in order. -/
def runWithdrawals (reqs : List (AuthUser × WithdrawRequest)) (s : Store) : Store :=
  reqs.foldl (fun st r => storeAfterWithdraw r.2 r.1 st) s

/-- At most one balance row per (user_id, token, network): the invariant
the `balances` unique key maintains in the real database. -/
def balancesKeyUnique (l : List Balance) : Prop :=
  l.Pairwise (fun a b =>
    ¬ (a.user_id = b.user_id ∧ a.token = b.token ∧ a.network = b.network))

/-- Body of `POST /v1/orders` (`OrderCreate`; pydantic enforces
`quantity ≥ 1`). -/
structure OrderCreate where
  item_id : Nat
  quantity : Nat
deriving DecidableEq, Repr

/-- `POST /v1/orders` (`create_order` in orders.py).  The generated
`payment_address` (`secrets.token_hex`) enters as the parameter
`payAddr`. -/
def create_order (body : OrderCreate) (user : AuthUser) (payAddr : String)
    (s : Store) : Except HttpError (Order × Store) :=
  match findItem s body.item_id with
  | none => .error ⟨404, "Item not found"⟩
  | some item =>
    if item.status ≠ "active" then
      .error ⟨409, "Item is no longer available"⟩
    else if item.seller_id == user.user_id then
      .error ⟨409, "You cannot buy your own listing"⟩
    else if item.quantity < body.quantity then
      .error ⟨400, "Not enough quantity available"⟩
    else
      let total := pyRound2 (item.price_usdt * body.quantity)
      let o : Order := ⟨s.next_order_id, user.user_id, item.id, body.quantity,
                        total, item.network, payAddr, "pending", none⟩
      .ok (o, { s with orders := s.orders ++ [o], next_order_id := s.next_order_id + 1 })

/-- The store visible after a create-order request completes. -/
def storeAfterCreateOrder (body : OrderCreate) (user : AuthUser) (payAddr : String)
    (s : Store) : Store :=
  match create_order body user payAddr s with
  | .ok (_, s') => s'
  | .error _ => s

/-- `PUT /v1/orders/{order_id}/cancel` (`cancel_order` in orders.py). -/
def cancel_order (order_id : Nat) (user : AuthUser) (s : Store) :
    Except HttpError Store :=
  match findOrder s order_id with
  | none => .error ⟨404, "Order not found"⟩
  | some o =>
    if o.buyer_id ≠ user.user_id then
      .error ⟨403, "Forbidden"⟩
    else if o.status ≠ "pending" then
      .error ⟨409, "Only pending orders can be cancelled"⟩
    else
      .ok { s with orders := s.orders.map (fun x =>
        if x.id == order_id then { x with status := "cancelled" } else x) }

/-- Body of `PUT /v1/items/{item_id}` (`ItemUpdate`): all fields
optional; pydantic enforces `price_usdt > 0` and `quantity ≥ 1` when
present. -/
structure ItemUpdate where
  name : Option String
  price_usdt : Option ℚ
  quantity : Option Nat
  status : Option String
deriving DecidableEq, Repr

/-- Whether `model_dump(exclude_none=True)` is empty. -/
def ItemUpdate.isEmpty (b : ItemUpdate) : Bool :=
  b.name.isNone && b.price_usdt.isNone && b.quantity.isNone && b.status.isNone

/-- The `UPDATE items SET ...` built from the non-None fields. -/
def applyItemUpdate (b : ItemUpdate) (it : Item) : Item :=
  { it with
    name := b.name.getD it.name,
    price_usdt := b.price_usdt.getD it.price_usdt,
    quantity := b.quantity.getD it.quantity,
    status := b.status.getD it.status }

/-- `PUT /v1/items/{item_id}` (`update_item` in items.py).  The status
validity check mirrors `if body.status and body.status not in
VALID_STATUSES` — a `None` or empty-string status skips it. -/
def update_item (item_id : Nat) (body : ItemUpdate) (user : AuthUser) (s : Store) :
    Except HttpError (Item × Store) :=
  match findItem s item_id with
  | none => .error ⟨404, "Item not found"⟩
  | some item =>
    if item.seller_id ≠ user.user_id ∧ user.is_admin = false then
      .error ⟨403, "You do not own this listing"⟩
    else if (match body.status with
             | some st => !(st == "") && !(VALID_STATUSES.contains st)
             | none => false) then
      .error ⟨400, "status must be one of VALID_STATUSES"⟩
    else if body.isEmpty then
      .error ⟨400, "No fields to update"⟩
    else
      .ok (applyItemUpdate body item,
           { s with items := s.items.map (fun it =>
               if it.id == item_id then applyItemUpdate body it else it) })

/-- `DELETE /v1/items/{item_id}` (`delete_item` in items.py): cancel the
listing and log the inventory event. -/
def delete_item (item_id : Nat) (user : AuthUser) (s : Store) :
    Except HttpError Store :=
  match findItem s item_id with
  | none => .error ⟨404, "Item not found"⟩
  | some item =>
    if item.seller_id ≠ user.user_id ∧ user.is_admin = false then
      .error ⟨403, "You do not own this listing"⟩
    else if item.status = "sold" then
      .error ⟨409, "Cannot delete a sold listing"⟩
    else
      .ok { s with
        items := s.items.map (fun it =>
          if it.id == item_id then { it with status := "cancelled" } else it),
        inventory_events := s.inventory_events ++ [⟨user.user_id, item_id, "cancelled"⟩] }

end Marketplace

namespace Pricing

/-- A decoded JSON value as produced by Python's `json` module /
`response.json()`: note that ints and floats are distinct Python types
(`isinstance(2.0, int)` is false) while bools are ints
(`isinstance(True, int)` is true), so both distinctions are kept. -/
inductive JVal where
  | jnull : JVal
  | jbool : Bool → JVal
  | jint : ℤ → JVal
  | jfloat : ℚ → JVal
  | jstr : String → JVal
  | jarr : List JVal → JVal
  | jobj : List (String × JVal) → JVal

/-- Python `dict.get(key)` on the association list of a `jobj` (first
match; real dicts have unique keys). -/
def objGet (kvs : List (String × JVal)) (k : String) : Option JVal :=
  (kvs.find? (fun kv => kv.1 == k)).map (fun kv => kv.2)

/-- `as_list` from `_extract_listings`: a list is itself, a dict gives
`list(x.values())`, anything else (including Python `None` for an absent
key) gives `[]`. -/
def asList : Option JVal → List JVal
  | some (.jarr xs) => xs
  | some (.jobj kvs) => kvs.map (fun kv => kv.2)
  | _ => []

/-- `_extract_listings` from main.py: locate the listings collection by
trying, in order, a top-level `listings` key, a top-level `results` key,
and a `data` wrapper; return `[]` when nothing matches. -/
def extractListings (data : JVal) : List JVal :=
  match data with
  | .jobj kvs =>
    if (objGet kvs "listings").isSome then asList (objGet kvs "listings")
    else
      match objGet kvs "results" with
      | some (.jarr xs) => xs
      | some (.jobj rkvs) =>
        if (objGet rkvs "listings").isSome then asList (objGet rkvs "listings")
        else rkvs.map (fun kv => kv.2)
      | _ =>
        match objGet kvs "data" with
        | some (.jobj wkvs) =>
          if (objGet wkvs "listings").isSome then asList (objGet wkvs "listings")
          else if (objGet wkvs "results").isSome then
            match objGet wkvs "results" with
            | some (.jarr xs) => xs
            | some (.jobj r2) =>
              if (objGet r2 "listings").isSome then asList (objGet r2 "listings")
              else r2.map (fun kv => kv.2)
            | _ => []
          else []
        | some (.jarr wxs) => wxs
        | _ => []
  | _ => []

/-- A price as built by the `market_listings` loop:
`{"keys": cur.get("keys"), "metal": cur.get("metal")}`.  A field is
`none` when the key is absent or its value is JSON null (both read back
as Python `None`). -/
def Price := Option JVal × Option JVal

/-- `cur.get(k)` collapsed so that a stored null equals an absent key,
exactly as Python's `None` does. -/
def priceGet (kvs : List (String × JVal)) (k : String) : Option JVal :=
  match objGet kvs k with
  | some .jnull => none
  | v => v

/-- Python truthiness of a decoded JSON value, for `cur = lst.get("currencies") or {}`. -/
def isTruthy : JVal → Bool
  | .jnull => false
  | .jbool b => b
  | .jint n => !(n == 0)
  | .jfloat q => !(q == 0)
  | .jstr s => !s.data.isEmpty
  | .jarr xs => !xs.isEmpty
  | .jobj kvs => !kvs.isEmpty

/-- The intent normalization of the `market_listings` loop.  Python's
`isinstance(intent, int)` also matches bools (`False == 0` maps to
"buy", `True` to "sell"); strings pass through; any other value yields a
string equal to neither "buy" nor "sell", so the listing is dropped. -/
def intentNorm : Option JVal → Option String
  | some (.jint n) => some (if n == 0 then "buy" else "sell")
  | some (.jbool b) => some (if b then "sell" else "buy")
  | some (.jstr s) => some s
  | _ => none

/-- `cur = lst.get("currencies") or {}`: the currencies container, with
any falsy value (including an absent key) replaced by the empty dict. -/
def currenciesOf (kvs : List (String × JVal)) : JVal :=
  match objGet kvs "currencies" with
  | some v => if isTruthy v then v else .jobj []
  | none => .jobj []

/-- One step of the `market_listings` partition loop on a single
listing.  Python raises `AttributeError` when the listing (or a truthy
`currencies`) is not a dict — modelled as `Except.error`.  Returns
`(price, side)` with `side` the normalized intent. -/
def listingSide (lst : JVal) : Except Unit (Price × Option String) :=
  match lst with
  | .jobj kvs =>
    match currenciesOf kvs with
    | .jobj ckvs =>
      .ok ((priceGet ckvs "keys", priceGet ckvs "metal"), intentNorm (objGet kvs "intent"))
    | _ => .error ()
  | _ => .error ()

/-- The partition of extracted listings into sell and buy price lists,
in extraction order, as the `market_listings` loop builds them. -/
def partitionListings : List JVal → Except Unit (List Price × List Price)
  | [] => .ok ([], [])
  | lst :: rest =>
    match listingSide lst with
    | .error e => .error e
    | .ok (price, side) =>
      match partitionListings rest with
      | .error e => .error e
      | .ok (sells, buys) =>
        if side == some "sell" then .ok (price :: sells, buys)
        else if side == some "buy" then .ok (sells, price :: buys)
        else .ok (sells, buys)

/-- The numeric reading Python's comparisons give a currency value
(bools count as 0/1); `none` for values whose comparison with a number
would raise `TypeError`. -/
def numVal : JVal → Option ℚ
  | .jint n => some (Rat.divInt n 1)
  | .jfloat q => some q
  | .jbool b => some (if b then 1 else 0)
  | _ => none

/-- `sort_key` from `market_listings` on one field: a missing value
becomes the sentinel `10**9`; a present non-numeric value is modelled as
an error (Python would raise `TypeError` once such a key participates in
a comparison). -/
def fieldKey : Option JVal → Except Unit ℚ
  | none => .ok (10 ^ 9)
  | some w =>
    match numVal w with
    | some q => .ok q
    | none => .error ()

/-- `sort_key(p)`: the pair `(k, m)` compared lexicographically. -/
def sortKey (p : Price) : Except Unit (ℚ × ℚ) :=
  match fieldKey p.1 with
  | .error e => .error e
  | .ok k =>
    match fieldKey p.2 with
    | .error e => .error e
    | .ok m => .ok (k, m)

/-- Strict lexicographic comparison of Python pairs. -/
def lexLt (a b : ℚ × ℚ) : Bool :=
  decide (a.1 < b.1) || (a.1 == b.1 && decide (a.2 < b.2))

/-- Non-strict lexicographic comparison of Python pairs. -/
def lexLe (a b : ℚ × ℚ) : Bool :=
  decide (a.1 < b.1) || (a.1 == b.1 && decide (a.2 ≤ b.2))

/-- The fold of Python's `min(..., key=sort_key)`: keep the current
minimum, replace only on strictly smaller key (ties keep the first). -/
def minFold : List Price → Price → ℚ × ℚ → Except Unit Price
  | [], best, _ => .ok best
  | x :: xs, best, bk =>
    match sortKey x with
    | .error e => .error e
    | .ok kx => if lexLt kx bk then minFold xs x kx else minFold xs best bk

/-- The fold of Python's `max(..., key=sort_key)`. -/
def maxFold : List Price → Price → ℚ × ℚ → Except Unit Price
  | [], best, _ => .ok best
  | x :: xs, best, bk =>
    match sortKey x with
    | .error e => .error e
    | .ok kx => if lexLt bk kx then maxFold xs x kx else maxFold xs best bk

/-- `min(sells, key=sort_key) if sells else None`. -/
def lowestSell : List Price → Except Unit (Option Price)
  | [] => .ok none
  | h :: t =>
    match sortKey h with
    | .error e => .error e
    | .ok kh =>
      match minFold t h kh with
      | .error e => .error e
      | .ok m => .ok (some m)

/-- `max(buys, key=sort_key) if buys else None`. -/
def highestBuy : List Price → Except Unit (Option Price)
  | [] => .ok none
  | h :: t =>
    match sortKey h with
    | .error e => .error e
    | .ok kh =>
      match maxFold t h kh with
      | .error e => .error e
      | .ok m => .ok (some m)

/-- The normalized listings summary returned by `GET /market/listings`:
the partitioned sides, their counts, and the two extremes. -/
structure ListingsResult where
  sells : List Price
  buys : List Price
  sell_count : Nat
  buy_count : Nat
  lowest_sell : Option Price
  highest_buy : Option Price

/-- The pure core of `market_listings` (main.py) applied to the decoded
upstream body: extraction, intent partition, and best-price
computation. -/
def market_listings_core (data : JVal) : Except Unit ListingsResult :=
  match partitionListings (extractListings data) with
  | .error e => .error e
  | .ok (sells, buys) =>
    match lowestSell sells with
    | .error e => .error e
    | .ok ls =>
      match highestBuy buys with
      | .error e => .error e
      | .ok hb => .ok ⟨sells, buys, sells.length, buys.length, ls, hb⟩

end Pricing

namespace Pricing

/-- An apostrophe character, kept out of string literals. -/
def apos : Char := Char.ofNat 39

/-- `QUALITY_NAME_TO_ID` from main.py: the fixed quality display-name to
TF2 quality-id table. -/
def QUALITY_NAME_TO_ID : List (String × Nat) :=
  [("Unique", 6),
   ("Genuine", 1),
   ("Vintage", 3),
   ("Unusual", 5),
   ("Strange", 11),
   ("Haunted", 13),
   (String.mk ['C','o','l','l','e','c','t','o','r', apos, 's'], 14),
   ("Collectors", 14),
   ("Decorated", 15)]

/-- `QUALITY_NAME_TO_ID.get(name)`: the table lookup. -/
def qualityLookup (name : String) : Option Nat :=
  (QUALITY_NAME_TO_ID.find? (fun e => e.1 == name)).map (fun e => e.2)

/-- The value of a hex digit character, if it is one. -/
def hexDigitVal (c : Char) : Option Nat :=
  if c.isDigit then some (c.toNat - 48)
  else if 'a' ≤ c ∧ c ≤ 'f' then some (c.toNat - 87)
  else if 'A' ≤ c ∧ c ≤ 'F' then some (c.toNat - 55)
  else none

/-- Python's `urllib.parse.unquote` restricted to single-byte escapes:
`%XX` with two hex digits decodes to the character with that code, an
invalid escape is left untouched.  (Multi-byte UTF-8 escapes do not
occur in any statement below.) -/
def percentDecode : List Char → List Char
  | [] => []
  | '%' :: h1 :: h2 :: rest =>
    match hexDigitVal h1, hexDigitVal h2 with
    | some v1, some v2 => Char.ofNat (16 * v1 + v2) :: percentDecode rest
    | _, _ => '%' :: percentDecode (h1 :: h2 :: rest)
  | c :: rest => c :: percentDecode rest

/-- `unquote` on a `String`. -/
def unquote (s : String) : String := String.mk (percentDecode s.data)

/-- The `netloc` and `path` components of `urllib.parse.urlparse`, for
URLs of the shape `scheme://netloc/path` (query and fragment cut off);
an input without `://` has an empty netloc and is wholly path, which is
what `urlparse` gives for scheme-less inputs. -/
def urlNetlocPath (u : String) : String × String :=
  let rec go : List Char → Option (List Char)
    | ':' :: '/' :: '/' :: rest => some rest
    | _ :: rest => go rest
    | [] => none
  match go u.data with
  | some rest =>
    let netloc := rest.takeWhile (fun c => ¬ (c = '/' ∨ c = '?' ∨ c = '#'))
    let path := (rest.dropWhile (fun c => ¬ (c = '/' ∨ c = '?' ∨ c = '#'))).takeWhile
      (fun c => ¬ (c = '?' ∨ c = '#'))
    (String.mk netloc, String.mk path)
  | none => ("", String.mk (u.data.takeWhile (fun c => ¬ (c = '?' ∨ c = '#'))))

/-- The structured result of `parse_bptf_stats_url` (the `parsed` debug
sub-dictionary of raw segments is omitted). -/
structure ParsedStats where
  item_name : String
  quality : Option Nat
  tradable : Nat
  craftable : Nat
  particle : Option Nat
deriving DecidableEq, Repr

/-- `parse_bptf_stats_url` from main.py: validate the host, split the
path into non-empty segments, decode the quality/item/flag segments, and
read an optional numeric effect id. -/
def parse_bptf_stats_url (stats_url : String) : Except HttpError ParsedStats :=
  let u := pyStrip stats_url
  let (netloc, path) := urlNetlocPath u
  if ¬ pyEndsWith netloc "backpack.tf" then
    .error ⟨422, "stats_url must be a backpack.tf link"⟩
  else
    let parts := ((splitChar '/' path.data).filter (fun seg => ¬ seg.isEmpty)).map String.mk
    match parts with
    | p0 :: p1 :: p2 :: p3 :: p4 :: rest =>
      if p0 ≠ "stats" then
        .error ⟨422, "stats_url path format not recognized"⟩
      else
        let quality_name := unquote p1
        let item_name := unquote p2
        let tradable_seg := unquote p3
        let craftable_seg := unquote p4
        let particle : Option Nat :=
          match rest.head? with
          | some p5 =>
            let tail := unquote p5
            if pyIsDigit tail then some (digitsToNat tail) else none
          | none => none
        .ok { item_name := item_name,
              quality := qualityLookup quality_name,
              tradable := if pyLower tradable_seg = "tradable" then 1 else 0,
              craftable := if pyLower craftable_seg = "craftable" then 1 else 0,
              particle := particle }
    | _ => .error ⟨422, "stats_url path format not recognized"⟩

end Pricing

/-- The status code of the HTTP error a request raised, `none` when the
request succeeded. -/
def errStatus {α : Type} : Except HttpError α → Option Nat
  | .error e => some e.status
  | .ok _ => none

namespace Pricing

/-- Whether a listing counts as a buy under the `market_listings`
normalization: integer (or boolean, which Python treats as an integer)
zero, or the string "buy". -/
def isBuyIntent (lst : JVal) : Bool :=
  match lst with
  | .jobj kvs =>
    match objGet kvs "intent" with
    | some (.jint n) => n == 0
    | some (.jbool b) => !b
    | some (.jstr st) => st == "buy"
    | _ => false
  | _ => false

/-- Whether a listing counts as a sell: a nonzero integer (or boolean
true), or the string "sell". -/
def isSellIntent (lst : JVal) : Bool :=
  match lst with
  | .jobj kvs =>
    match objGet kvs "intent" with
    | some (.jint n) => !(n == 0)
    | some (.jbool b) => b
    | some (.jstr st) => st == "sell"
    | _ => false
  | _ => false

/-- The price pair a listing contributes, read off the same extraction
the partition loop performs. -/
def listingPrice (lst : JVal) : Price :=
  match listingSide lst with
  | .ok (p, _) => p
  | .error _ => (none, none)

/-- Comparison of optional price components with a missing component
treated as plus infinity — the reading the specification gives of the
sort key. -/
def optLtInf : Option ℚ → Option ℚ → Bool
  | some a, some b => decide (a < b)
  | some _, none => true
  | _, _ => false

/-- The numeric component of a price field under the specification's
reading (`none` = missing = plus infinity). -/
def infKey (v : Option JVal) : Option ℚ := v.bind numVal

/-- Strict lexicographic (keys, metal) comparison with missing
components treated as plus infinity, per the specification's wording. -/
def infLexLt (p q : Price) : Bool :=
  optLtInf (infKey p.1) (infKey q.1) ||
    (infKey p.1 == infKey q.1 && optLtInf (infKey p.2) (infKey q.2))

/-- An input in which `_extract_listings` recognizes none of its
structure: not a dict, or a dict with no `listings` key, no list/dict
`results` value, and no list `data` wrapper nor dict `data` wrapper
containing a `listings` or `results` key. -/
def noListingsSource (data : JVal) : Prop :=
  match data with
  | .jobj kvs =>
    objGet kvs "listings" = none ∧
    (match objGet kvs "results" with
     | some (.jarr _) => False
     | some (.jobj _) => False
     | _ => True) ∧
    (match objGet kvs "data" with
     | some (.jobj wkvs) => objGet wkvs "listings" = none ∧ objGet wkvs "results" = none
     | some (.jarr _) => False
     | _ => True)
  | _ => True

/-- The example payload of §8: one integer-intent buy and one
string-intent sell. -/
def examplePayload : JVal :=
  .jobj [("results", .jobj [("listings", .jarr
    [.jobj [("intent", .jint 0),
            ("currencies", .jobj [("keys", .jint 1), ("metal", .jint 10)])],
     .jobj [("intent", .jstr "sell"),
            ("currencies", .jobj [("metal", .jint 5)])]])])]

/-- Two sell listings that separate the source's `10**9` sentinel from
the specification's plus-infinity reading: one has `keys` equal to
`2 * 10^9`, the other has no `keys` at all. -/
def sentinelPayload : JVal :=
  .jobj [("listings", .jarr
    [.jobj [("intent", .jstr "sell"),
            ("currencies", .jobj [("keys", .jint 2000000000), ("metal", .jint 0)])],
     .jobj [("intent", .jstr "sell"),
            ("currencies", .jobj [("metal", .jint 0)])]])]

/-- The price of the first sentinel listing. -/
def fxPriceA : Price := (some (.jint 2000000000), some (.jint 0))

/-- The price of the second sentinel listing. -/
def fxPriceB : Price := (none, some (.jint 0))

/-- A single listing whose intent is the boolean `true`. -/
def boolIntentPayload : JVal :=
  .jobj [("listings", .jarr
    [.jobj [("intent", .jbool true), ("currencies", .jobj [("metal", .jint 1)])]])]

/-- Fixture: the normalized result of the example payload. -/
def fxExampleResult : ListingsResult :=
  match market_listings_core examplePayload with
  | .ok r => r
  | .error _ => ⟨[], [], 0, 0, none, none⟩

end Pricing

namespace Marketplace

/-- Fixture: an active listing of seller 2. -/
def fxItem : Item := ⟨1, 2, "Mann Co. Supply Crate Key", "key", 5/2, 3, "polygon", "active"⟩

/-- Fixture: a pending order of buyer 1 on `fxItem`, amount 5. -/
def fxOrder : Order := ⟨1, 1, 1, 2, 5, "polygon", "0xpay", "pending", none⟩

/-- Fixture: the store holding `fxItem` and `fxOrder` and nothing else. -/
def fxStore : Store := ⟨[fxItem], [fxOrder], [], [], [], 2⟩

/-- Fixture: a deposit-confirmation body for order 1 whose amount (7)
differs from the order's stored amount (5). -/
def fxDeposit : DepositConfirm := ⟨1, "0xhash", 7, "USDT", "polygon"⟩

/-- Fixture: an authenticated user who is neither buyer 1 nor seller 2
nor an admin. -/
def fxOutsider : AuthUser := ⟨3, false⟩

/-- Fixture: the store `confirm_deposit` produces from `fxStore`. -/
def fxConfirmed : Store :=
  match confirm_deposit fxDeposit fxOutsider fxStore with
  | .ok s => s
  | .error _ => fxStore

/-- Fixture: a cancelled listing of seller 1. -/
def fxCancelledItem : Item := ⟨1, 1, "Scrap Metal", "metal", 5/2, 3, "polygon", "cancelled"⟩

/-- Fixture: a sold listing of seller 1. -/
def fxSoldItem : Item := ⟨2, 1, "Team Captain", "other", 10, 1, "bsc", "sold"⟩

/-- Fixture: the store holding the cancelled and sold listings. -/
def fxStatusStore : Store := ⟨[fxCancelledItem, fxSoldItem], [], [], [], [], 1⟩

/-- Fixture: the owner of the `fxStatusStore` listings (not an admin). -/
def fxOwner : AuthUser := ⟨1, false⟩

/-- Fixture: an active listing of seller 1 with quantity 1. -/
def fxActiveItem1 : Item := ⟨1, 1, "Tour of Duty Ticket", "ticket", 5/2, 1, "polygon", "active"⟩

/-- Fixture: the store holding only `fxActiveItem1`. -/
def fxSellerStore : Store := ⟨[fxActiveItem1], [], [], [], [], 1⟩

/-- Fixture: a buyer distinct from seller 1. -/
def fxBuyer : AuthUser := ⟨7, false⟩

/-- Fixture: a USDT/polygon balance of 10 for user 1. -/
def fxBalance : Balance := ⟨1, "USDT", "polygon", 10⟩

/-- Fixture: the store holding only `fxBalance`. -/
def fxWalletStore : Store := ⟨[], [], [fxBalance], [], [], 1⟩

/-- Fixture: user 1 as the wallet caller. -/
def fxWUser : AuthUser := ⟨1, false⟩

/-- Fixture: a withdrawal of 4 USDT on polygon to a well-formed
address. -/
def fxWithdraw : WithdrawRequest :=
  ⟨4, "USDT", "polygon", "0x1234567890123456789012345678901234567890"⟩

/-- Fixture: a withdrawal of 40 USDT, exceeding the balance of 10. -/
def fxWithdrawBig : WithdrawRequest :=
  ⟨40, "USDT", "polygon", "0x1234567890123456789012345678901234567890"⟩

/-- Fixture: the store `withdraw` produces from `fxWalletStore` for
`fxWithdraw`. -/
def fxWithdrawn : Store :=
  match withdraw fxWithdraw fxWUser fxWalletStore with
  | .ok s => s
  | .error _ => fxWalletStore

/-- Fixture: an update body setting only the price. -/
def fxPriceUpdate : ItemUpdate := ⟨none, some 99, none, none⟩

/-- Fixture: an update body setting only the status, to "active". -/
def fxReactivate : ItemUpdate := ⟨none, none, none, some "active"⟩

end Marketplace

namespace Watchlist

/-- Fixture: a valid watchlist payload. -/
def fxPayload : WPayload := ⟨"5021;6", "Mann Co. Supply Crate Key", 80, none⟩

/-- Fixture: the empty watchlist store. -/
def fxEmpty : WStore := ⟨[], 1⟩

end Watchlist

namespace Marketplace

/-- C1: deposit confirmation is claimed to be a single atomic step, but
`get_db` opens the connection with `autocommit=True` and
`confirm_deposit` opens no transaction, so each of its five writes
commits separately.  Evaluating the handler on a pending order with a
failure injected after the order-update and item-update statements
(before the balance credit) leaves the order paid and the item sold
while the buyer's balance, the transaction ledger and the inventory log
are untouched — a partial application the claim forbids; the uncrashed
run, by contrast, credits the full amount. -/
theorem C1_deposit_confirmation_commits_partially :
    confirm_deposit_crashAt 2 fxDeposit fxOutsider fxStore =
      .ok { fxStore with
              items := [{ fxItem with status := "sold" }],
              orders := [{ fxOrder with status := "paid", tx_hash := some "0xhash" }] }
    ∧ (confirm_deposit_crashAt 2 fxDeposit fxOutsider fxStore).map
        (fun s => (balAmt s 1 "USDT" "polygon", s.transactions, s.inventory_events)) =
        .ok (0, [], [])
    ∧ (confirm_deposit fxDeposit fxOutsider fxStore).map
        (fun s => balAmt s 1 "USDT" "polygon") = .ok 7
    ∧ fxOrder.status = "pending" := by
  exact ⟨rfl, rfl, rfl, rfl⟩

/-- C3: the §4.5 state machine admits no transition out of `sold` or
`cancelled`, and quantity/price edits only while `active`; but
`update_item` never inspects the current status, so the owner can move a
cancelled item back to `active` and can re-price and re-quantify a sold
item.  Evaluating the handler on the failing inputs shows both. -/
theorem C3_update_item_bypasses_state_machine :
    findItem fxStatusStore 1 = some fxCancelledItem
    ∧ fxCancelledItem.status = "cancelled"
    ∧ (update_item 1 fxReactivate fxOwner fxStatusStore).map (fun r => r.1.status) =
        .ok "active"
    ∧ findItem fxStatusStore 2 = some fxSoldItem
    ∧ fxSoldItem.status = "sold"
    ∧ (update_item 2 fxPriceUpdate fxOwner fxStatusStore).map
        (fun r => (r.1.status, r.1.price_usdt)) = .ok ("sold", 99) := by
  exact ⟨rfl, rfl, rfl, rfl, rfl, rfl⟩

end Marketplace

namespace Watchlist

/-- Helper: `find?` over a list where no element satisfies the predicate
concatenated with a tail starts searching the tail. -/
theorem find?_append_of_none {α : Type} (p : α → Bool) (l₁ l₂ : List α)
    (h : ∀ x ∈ l₁, p x = false) : (l₁ ++ l₂).find? p = l₂.find? p := by
  induction l₁ with
  | nil => rfl
  | cons a t ih =>
    have ha := h a (List.mem_cons_self a t)
    simp only [List.cons_append, List.find?_cons, ha]
    exact ih (fun x hx => h x (List.mem_cons_of_mem a hx))

/-- C9: for every valid payload, Create followed by Read of the assigned
id returns the identical entry; Create with a sku already present fails
with Conflict (409) and leaves the store unchanged. -/
theorem C9_watchlist_create_then_read (s : WStore) (p : WPayload)
    (hv : wValid p) (hw : wWf s) :
    ((∀ r ∈ s.rows, r.sku ≠ p.sku) →
      ∃ row s', create_item p s = .ok (row, s') ∧ get_item row.id s' = .ok row
        ∧ row.sku = p.sku ∧ row.name = p.name
        ∧ row.target_price_ref = p.target_price_ref ∧ row.note = p.note)
    ∧ ((∃ r ∈ s.rows, r.sku = p.sku) →
      create_item p s = .error ⟨409, "sku already exists in watchlist"⟩
      ∧ storeAfterCreate p s = s) := by
  constructor
  · intro hnew
    have hany : s.rows.any (fun r => r.sku == p.sku) = false := by
      simp only [List.any_eq_false, beq_iff_eq]
      exact hnew
    refine ⟨⟨s.next_id, p.sku, p.name, p.target_price_ref, p.note⟩,
      ⟨s.rows ++ [⟨s.next_id, p.sku, p.name, p.target_price_ref, p.note⟩], s.next_id + 1⟩,
      ?_, ?_, rfl, rfl, rfl, rfl⟩
    · simp only [create_item, hany, Bool.false_eq_true, if_false]
    · have hrows : ∀ r ∈ s.rows, (r.id == s.next_id) = false := by
        intro r hr
        have := hw r hr
        simp only [beq_eq_false_iff_ne, ne_eq]
        omega
      simp only [get_item, find?_append_of_none _ _ _ hrows, List.find?_cons,
        beq_self_eq_true]
  · intro hdup
    have hany : s.rows.any (fun r => r.sku == p.sku) = true := by
      simp only [List.any_eq_true, beq_iff_eq]
      exact hdup
    constructor
    · simp only [create_item, hany, if_true]
    · simp only [storeAfterCreate, create_item, hany, if_true]

/-- Witness for C9: create then read on the empty store with a concrete
valid payload returns the identical entry. -/
theorem C9_watchlist_create_then_read_witness :
    ∃ row s', create_item fxPayload fxEmpty = .ok (row, s')
      ∧ get_item row.id s' = .ok row
      ∧ row.sku = fxPayload.sku ∧ row.name = fxPayload.name
      ∧ row.target_price_ref = fxPayload.target_price_ref ∧ row.note = fxPayload.note :=
  (C9_watchlist_create_then_read fxEmpty fxPayload (by unfold wValid; decide)
    (by intro r hr; cases hr)).1 (by intro r hr; cases hr)

end Watchlist

namespace Pricing

/-- C8 counterexample: the quality table `QUALITY_NAME_TO_ID` holds 9
built-in names, not the 24 the claim states. -/
theorem C8_quality_table_is_not_24_names :
    QUALITY_NAME_TO_ID.length = 9 ∧ QUALITY_NAME_TO_ID.length ≠ 24 := by
  exact ⟨rfl, by decide⟩

/-- C8 (amended): the stats-URL parser looks the url-decoded quality
segment up in a fixed table of 9 built-in names; a name absent from the
table yields an absent quality rather than an error; on the example URL
it yields quality 5, item "Conquistador", tradable 1, craftable 1,
particle 89. -/
theorem C8_stats_url_parsing (name : String)
    (h : ∀ e ∈ QUALITY_NAME_TO_ID, e.1 ≠ name) :
    qualityLookup name = none
    ∧ QUALITY_NAME_TO_ID.length = 9
    ∧ parse_bptf_stats_url
        "https://backpack.tf/stats/Unusual/Conquistador/Tradable/Craftable/89" =
        .ok ⟨"Conquistador", some 5, 1, 1, some 89⟩
    ∧ parse_bptf_stats_url
        "https://backpack.tf/stats/Rustic/Conquistador/Tradable/Craftable/89" =
        .ok ⟨"Conquistador", none, 1, 1, some 89⟩ := by
  refine ⟨?_, rfl, rfl, rfl⟩
  have hfind : QUALITY_NAME_TO_ID.find? (fun e => e.1 == name) = none := by
    rw [List.find?_eq_none]
    intro e he
    simp only [beq_iff_eq]
    exact h e he
  simp only [qualityLookup, hfind, Option.map_none']

/-- Witness for C8: the name "Rustic" is in none of the 9 table entries,
and its lookup is absent. -/
theorem C8_stats_url_parsing_witness :
    qualityLookup "Rustic" = none
    ∧ QUALITY_NAME_TO_ID.length = 9
    ∧ parse_bptf_stats_url
        "https://backpack.tf/stats/Unusual/Conquistador/Tradable/Craftable/89" =
        .ok ⟨"Conquistador", some 5, 1, 1, some 89⟩
    ∧ parse_bptf_stats_url
        "https://backpack.tf/stats/Rustic/Conquistador/Tradable/Craftable/89" =
        .ok ⟨"Conquistador", none, 1, 1, some 89⟩ :=
  C8_stats_url_parsing "Rustic" (by decide)

/-- C7: `_extract_listings` is total by construction (every Python
operation it performs — `isinstance`, `in`, `.get`, `list(x.values())` —
is non-raising, and the embedding mirrors each branch); on any input in
which it recognizes no listings/results/data structure it returns the
empty collection, and the empty collection makes the whole normalizer
report zero counts with both extremes `None`. -/
theorem C7_extraction_degrades_to_empty (data : JVal) (h : noListingsSource data) :
    extractListings data = []
    ∧ market_listings_core data = .ok ⟨[], [], 0, 0, none, none⟩ := by
  have hempty : extractListings data = [] := by
    match data, h with
    | .jnull, _ => rfl
    | .jbool b, _ => rfl
    | .jint n, _ => rfl
    | .jfloat q, _ => rfl
    | .jstr st, _ => rfl
    | .jarr xs, _ => rfl
    | .jobj kvs, ⟨h1, h2, h3⟩ => ?_
    simp only [extractListings, h1, Option.isSome_none, Bool.false_eq_true, if_false]
    cases hres : objGet kvs "results" with
    | some v =>
      rw [hres] at h2
      cases v with
      | jarr xs => exact absurd h2 (by simp)
      | jobj rkvs => exact absurd h2 (by simp)
      | jnull => ?_
      | jbool b => ?_
      | jint n => ?_
      | jfloat q => ?_
      | jstr st => ?_
      all_goals
        cases hdat : objGet kvs "data" with
        | some w =>
          rw [hdat] at h3
          cases w with
          | jobj wkvs =>
            obtain ⟨hw1, hw2⟩ := h3
            simp only [hw1, hw2, Option.isSome_none, Bool.false_eq_true, if_false]
          | jarr ws => exact absurd h3 (by simp)
          | jnull => rfl
          | jbool b2 => rfl
          | jint n2 => rfl
          | jfloat q2 => rfl
          | jstr st2 => rfl
        | none => rfl
    | none =>
      cases hdat : objGet kvs "data" with
      | some w =>
        rw [hdat] at h3
        cases w with
        | jobj wkvs =>
          obtain ⟨hw1, hw2⟩ := h3
          simp only [hw1, hw2, Option.isSome_none, Bool.false_eq_true, if_false]
        | jarr ws => exact absurd h3 (by simp)
        | jnull => rfl
        | jbool b2 => rfl
        | jint n2 => rfl
        | jfloat q2 => rfl
        | jstr st2 => rfl
      | none => rfl
  refine ⟨hempty, ?_⟩
  simp only [market_listings_core, hempty]
  rfl

/-- Witness for C7: the empty dict `{}` has no recognizable structure,
extracts nothing, and yields zero counts with both extremes `None`. -/
theorem C7_extraction_degrades_to_empty_witness :
    extractListings (.jobj []) = []
    ∧ market_listings_core (.jobj []) = .ok ⟨[], [], 0, 0, none, none⟩ :=
  C7_extraction_degrades_to_empty (.jobj []) ⟨rfl, trivial, trivial⟩

end Pricing

namespace Marketplace

/-- C5 counterexample: on an existing *active* item whose seller issues
the order with a quantity exceeding the available quantity, `create_order`
raises the 409 buy-own-listing Conflict, not the claimed InvalidInput —
the quantity check runs only after the seller check. -/
theorem C5_excess_quantity_not_always_invalid_input :
    findItem fxSellerStore 1 = some fxActiveItem1
    ∧ fxActiveItem1.status = "active"
    ∧ fxActiveItem1.quantity = 1
    ∧ fxActiveItem1.seller_id = fxOwner.user_id
    ∧ create_order ⟨1, 5⟩ fxOwner "0xpay" fxSellerStore =
        .error ⟨409, "You cannot buy your own listing"⟩
    ∧ errStatus (create_order ⟨1, 5⟩ fxOwner "0xpay" fxSellerStore) ≠ some 400 := by
  exact ⟨rfl, rfl, rfl, rfl, rfl, by decide⟩

/-- C5 (amended): order creation on an existing item succeeds — as a
pending order with amount `round2(price × quantity)` and the item's
network — only when the item is active, the buyer differs from the
seller, and the quantity is at most the item's; a buyer equal to the
seller fails with Conflict (409); and, provided the item is active and
the buyer differs from the seller, an excessive quantity fails with
InvalidInput (400) and creates no order row. -/
theorem C5_order_creation_rules (s : Store) (body : OrderCreate) (u : AuthUser)
    (payAddr : String) (item : Item) (hf : findItem s body.item_id = some item) :
    (∀ o s', create_order body u payAddr s = .ok (o, s') →
      item.status = "active" ∧ item.seller_id ≠ u.user_id
      ∧ body.quantity ≤ item.quantity
      ∧ o.status = "pending" ∧ o.buyer_id = u.user_id ∧ o.quantity = body.quantity
      ∧ o.amount_usdt = pyRound2 (item.price_usdt * body.quantity)
      ∧ o.network = item.network ∧ o.tx_hash = none
      ∧ s'.orders = s.orders ++ [o])
    ∧ (item.seller_id = u.user_id → errStatus (create_order body u payAddr s) = some 409)
    ∧ (item.status = "active" → item.seller_id ≠ u.user_id →
        item.quantity < body.quantity →
        create_order body u payAddr s = .error ⟨400, "Not enough quantity available"⟩)
    ∧ (∀ e, create_order body u payAddr s = .error e →
        storeAfterCreateOrder body u payAddr s = s) := by
  refine ⟨?_, ?_, ?_, ?_⟩
  · intro o s' hok
    simp only [create_order, hf] at hok
    split at hok
    · cases hok
    next hactive =>
      split at hok
      · cases hok
      next hseller =>
        split at hok
        · cases hok
        next hqty =>
          have hact : item.status = "active" := by
            by_contra hne
            exact hactive hne
          have hsel : item.seller_id ≠ u.user_id := by
            intro he
            simp [he] at hseller
          have hle : body.quantity ≤ item.quantity := Nat.le_of_not_lt hqty
          obtain ⟨ho, hs'⟩ := Prod.mk.injEq .. ▸ (Except.ok.injEq .. ▸ hok)
          subst ho
          subst hs'
          exact ⟨hact, hsel, hle, rfl, rfl, rfl, rfl, rfl, rfl, rfl⟩
  · intro hsel
    simp only [create_order, hf]
    split
    · rfl
    · simp only [hsel, beq_self_eq_true, if_true]
      rfl
  · intro hact hsel hqty
    have hbeq : (item.seller_id == u.user_id) = false := by
      simp only [beq_eq_false_iff_ne, ne_eq]
      exact hsel
    simp only [create_order, hf, hact, ne_eq, not_true_eq_false, if_false, hbeq,
      Bool.false_eq_true, hqty, if_true]
  · intro e he
    simp only [storeAfterCreateOrder, he]

/-- Witness for C5: on the concrete active single-quantity listing, the
seller's own excessive order yields 409, a stranger's excessive order
yields the 400 InvalidInput, and a stranger's valid order succeeds as a
pending order with the rounded amount and copied network. -/
theorem C5_order_creation_rules_witness :
    errStatus (create_order ⟨1, 5⟩ fxOwner "0xpay" fxSellerStore) = some 409
    ∧ create_order ⟨1, 5⟩ fxBuyer "0xpay" fxSellerStore =
        .error ⟨400, "Not enough quantity available"⟩
    ∧ (fxActiveItem1.status = "active" ∧ fxActiveItem1.seller_id ≠ fxBuyer.user_id
        ∧ (1 : Nat) ≤ fxActiveItem1.quantity) :=
  ⟨(C5_order_creation_rules fxSellerStore ⟨1, 5⟩ fxOwner "0xpay" fxActiveItem1 rfl).2.1 rfl,
   (C5_order_creation_rules fxSellerStore ⟨1, 5⟩ fxBuyer "0xpay" fxActiveItem1 rfl).2.2.1
     rfl (by decide) (by decide),
   (C5_order_creation_rules fxSellerStore ⟨1, 1⟩ fxBuyer "0xpay" fxActiveItem1 rfl).1
     ⟨1, fxBuyer.user_id, 1, 1, pyRound2 (fxActiveItem1.price_usdt * 1),
      fxActiveItem1.network, "0xpay", "pending", none⟩
     { fxSellerStore with
         orders := fxSellerStore.orders ++
           [⟨1, fxBuyer.user_id, 1, 1, pyRound2 (fxActiveItem1.price_usdt * 1),
             fxActiveItem1.network, "0xpay", "pending", none⟩],
         next_order_id := 2 }
     rfl |>.imp id (fun h => h.imp id (fun h => h.1))⟩

end Marketplace

namespace Marketplace

/-- C2 counterexample: `confirm_deposit` mutates an order (it marks it
paid) yet performs no ownership check at all — a concrete authenticated
user who is neither the order's buyer nor the item's seller nor an admin
confirms the deposit successfully instead of receiving Forbidden. -/
theorem C2_confirm_deposit_skips_ownership :
    findOrder fxStore 1 = some fxOrder
    ∧ fxOutsider.user_id ≠ fxOrder.buyer_id
    ∧ fxOutsider.is_admin = false
    ∧ confirm_deposit fxDeposit fxOutsider fxStore = .ok fxConfirmed
    ∧ errStatus (confirm_deposit fxDeposit fxOutsider fxStore) ≠ some 403 := by
  exact ⟨rfl, by decide, rfl, rfl, by decide⟩

/-- C2 (amended): item update, item delete and order cancel enforce the
ownership rule — they succeed only for the owning seller/buyer or an
admin, and a caller who is neither owner nor admin receives Forbidden
(403); deposit confirmation, however, performs no ownership check: its
outcome is identical for every authenticated caller. -/
theorem C2_mutation_ownership_rules (s : Store) (u uB : AuthUser) (iid oid : Nat)
    (ib : ItemUpdate) (db : DepositConfirm) :
    (∀ it r, findItem s iid = some it → update_item iid ib u s = .ok r →
      it.seller_id = u.user_id ∨ u.is_admin = true)
    ∧ (∀ it, findItem s iid = some it → it.seller_id ≠ u.user_id →
        u.is_admin = false →
        update_item iid ib u s = .error ⟨403, "You do not own this listing"⟩)
    ∧ (∀ it r, findItem s iid = some it → delete_item iid u s = .ok r →
        it.seller_id = u.user_id ∨ u.is_admin = true)
    ∧ (∀ it, findItem s iid = some it → it.seller_id ≠ u.user_id →
        u.is_admin = false →
        delete_item iid u s = .error ⟨403, "You do not own this listing"⟩)
    ∧ (∀ o r, findOrder s oid = some o → cancel_order oid u s = .ok r →
        o.buyer_id = u.user_id ∨ u.is_admin = true)
    ∧ (∀ o, findOrder s oid = some o → o.buyer_id ≠ u.user_id →
        u.is_admin = false →
        cancel_order oid u s = .error ⟨403, "Forbidden"⟩)
    ∧ confirm_deposit db u s = confirm_deposit db uB s := by
  refine ⟨?_, ?_, ?_, ?_, ?_, ?_, rfl⟩
  · intro it r hf hok
    by_cases hown : it.seller_id = u.user_id ∨ u.is_admin = true
    · exact hown
    · push_neg at hown
      have hadm : u.is_admin = false := by
        cases hb : u.is_admin
        · rfl
        · exact absurd hb hown.2
      simp only [update_item, hf, ne_eq, hown.1, not_false_eq_true, hadm,
        and_self, if_true] at hok
      cases hok
  · intro it hf hne hadm
    simp only [update_item, hf, ne_eq, hne, not_false_eq_true, hadm, and_self, if_true]
  · intro it r hf hok
    by_cases hown : it.seller_id = u.user_id ∨ u.is_admin = true
    · exact hown
    · push_neg at hown
      have hadm : u.is_admin = false := by
        cases hb : u.is_admin
        · rfl
        · exact absurd hb hown.2
      simp only [delete_item, hf, ne_eq, hown.1, not_false_eq_true, hadm,
        and_self, if_true] at hok
      cases hok
  · intro it hf hne hadm
    simp only [delete_item, hf, ne_eq, hne, not_false_eq_true, hadm, and_self, if_true]
  · intro o r hf hok
    by_cases hown : o.buyer_id = u.user_id
    · exact Or.inl hown
    · simp only [cancel_order, hf, ne_eq, hown, not_false_eq_true, if_true] at hok
      cases hok
  · intro o hf hne hadm
    simp only [cancel_order, hf, ne_eq, hne, not_false_eq_true, if_true]

/-- Witness for C2: concrete Forbidden responses for the outsider on an
item update, an item delete and an order cancel, and the
user-independence of deposit confirmation at two concrete callers. -/
theorem C2_mutation_ownership_rules_witness :
    update_item 1 fxPriceUpdate fxOutsider fxStatusStore =
      .error ⟨403, "You do not own this listing"⟩
    ∧ delete_item 1 fxOutsider fxStatusStore =
      .error ⟨403, "You do not own this listing"⟩
    ∧ cancel_order 1 fxOutsider fxStore = .error ⟨403, "Forbidden"⟩
    ∧ confirm_deposit fxDeposit fxOutsider fxStore =
      confirm_deposit fxDeposit fxOwner fxStore :=
  ⟨(C2_mutation_ownership_rules fxStatusStore fxOutsider fxOwner 1 1 fxPriceUpdate
      fxDeposit).2.1 fxCancelledItem rfl (by decide) rfl,
   (C2_mutation_ownership_rules fxStatusStore fxOutsider fxOwner 1 1 fxPriceUpdate
      fxDeposit).2.2.2.1 fxCancelledItem rfl (by decide) rfl,
   (C2_mutation_ownership_rules fxStore fxOutsider fxOwner 1 1 fxPriceUpdate
      fxDeposit).2.2.2.2.2.1 fxOrder rfl (by decide) rfl,
   (C2_mutation_ownership_rules fxStore fxOutsider fxOwner 1 1 fxPriceUpdate
      fxDeposit).2.2.2.2.2.2⟩

end Marketplace

namespace Marketplace

/-- Helper: `find?` commutes with mapping a function that does not
change whether the predicate holds. -/
theorem find?_map_of_pred_inv {α : Type} (f : α → α) (p : α → Bool)
    (hp : ∀ x, p (f x) = p x) : ∀ l : List α, (l.map f).find? p = (l.find? p).map f := by
  intro l
  induction l with
  | nil => rfl
  | cons a t ih =>
    simp only [List.map_cons, List.find?_cons, hp a]
    cases hpa : p a
    · exact ih
    · rfl

/-- Helper: the balance-row update of a credit or debit never changes
the row's key, so key predicates are invariant under it. -/
theorem balKey_update_inv (uid : Nat) (t n : String) (g : ℚ → ℚ) (x : Balance) :
    balKey uid t n (if balKey uid t n x then { x with amount := g x.amount } else x) =
      balKey uid t n x := by
  cases hx : balKey uid t n x
  · simp only [if_false, hx, Bool.false_eq_true]
  · simp only [if_true, hx]
    simp only [balKey] at hx ⊢
    exact hx

/-- Helper: the balance visible for a key after `creditBalance` is the
previous balance plus the credited amount. -/
theorem creditBalance_balAmt (uid : Nat) (t n : String) (amt : ℚ) (s : Store) :
    balAmt (creditBalance uid t n amt s) uid t n = balAmt s uid t n + amt := by
  unfold creditBalance
  cases hany : s.balances.any (balKey uid t n)
  · have hall : ∀ x ∈ s.balances, balKey uid t n x = false := by
      intro x hx
      cases hpx : balKey uid t n x
      · rfl
      · exact absurd hpx (List.any_eq_false.mp hany x hx)
    have hnone : s.balances.find? (balKey uid t n) = none := by
      rw [List.find?_eq_none]
      intro x hx
      simp [hall x hx]
    have hrow : balKey uid t n ⟨uid, t, n, amt⟩ = true := by
      simp [balKey]
    simp [balAmt, findBalance, Watchlist.find?_append_of_none _ _ _ hall, hnone,
      List.find?_cons, hrow]
  · have hsome := List.find?_isSome.mpr (List.any_eq_true.mp hany)
    obtain ⟨b, hb⟩ := Option.isSome_iff_exists.mp hsome
    have hpb : balKey uid t n b = true := List.find?_some hb
    simp [balAmt, findBalance,
      find?_map_of_pred_inv _ _ (fun x => balKey_update_inv uid t n (· + amt) x),
      hb, hpb]

/-- Helper: `creditBalance` writes only the balances table. -/
theorem creditBalance_rest (uid : Nat) (t n : String) (amt : ℚ) (s : Store) :
    (creditBalance uid t n amt s).transactions = s.transactions
    ∧ (creditBalance uid t n amt s).orders = s.orders
    ∧ (creditBalance uid t n amt s).items = s.items
    ∧ (creditBalance uid t n amt s).inventory_events = s.inventory_events := by
  unfold creditBalance
  split
  · exact ⟨rfl, rfl, rfl, rfl⟩
  · exact ⟨rfl, rfl, rfl, rfl⟩

/-- Helper: a successful `confirm_deposit` is exactly the five writes
applied in order to the store, and requires the order pending. -/
theorem confirm_deposit_ok_inv (body : DepositConfirm) (u : AuthUser)
    (s s' : Store) (o : Order) (ho : findOrder s body.order_id = some o)
    (h : confirm_deposit body u s = .ok s') :
    o.status = "pending" ∧
    s' = appendEvent ⟨o.buyer_id, o.item_id, "received"⟩
          (appendTxn ⟨o.buyer_id, some o.id, "deposit", body.amount, body.token,
                      body.network, some body.tx_hash⟩
            (creditBalance o.buyer_id body.token body.network body.amount
              (markItemSold o.item_id (markOrderPaid o.id body.tx_hash s)))) := by
  simp only [confirm_deposit, ho] at h
  split at h
  · cases h
  split at h
  · cases h
  split at h
  · cases h
  next hpend =>
    refine ⟨not_not.mp hpend, ?_⟩
    cases h
    rfl

/-- C10: a successful deposit confirmation credits the buyer's balance
and records in the deposit transaction exactly the amount supplied in
the webhook request body — the order's stored amount is never read for
the credit. -/
theorem C10_deposit_credits_request_amount (s : Store) (body : DepositConfirm)
    (u : AuthUser) (o : Order) (s' : Store)
    (ho : findOrder s body.order_id = some o)
    (h : confirm_deposit body u s = .ok s') :
    balAmt s' o.buyer_id body.token body.network =
      balAmt s o.buyer_id body.token body.network + body.amount
    ∧ s'.transactions = s.transactions ++
        [⟨o.buyer_id, some o.id, "deposit", body.amount, body.token,
          body.network, some body.tx_hash⟩] := by
  obtain ⟨hpend, rfl⟩ := confirm_deposit_ok_inv body u s s' o ho h
  constructor
  · calc balAmt (appendEvent ⟨o.buyer_id, o.item_id, "received"⟩
          (appendTxn ⟨o.buyer_id, some o.id, "deposit", body.amount, body.token,
                      body.network, some body.tx_hash⟩
            (creditBalance o.buyer_id body.token body.network body.amount
              (markItemSold o.item_id (markOrderPaid o.id body.tx_hash s)))))
          o.buyer_id body.token body.network
        = balAmt (creditBalance o.buyer_id body.token body.network body.amount
            (markItemSold o.item_id (markOrderPaid o.id body.tx_hash s)))
            o.buyer_id body.token body.network := rfl
      _ = balAmt (markItemSold o.item_id (markOrderPaid o.id body.tx_hash s))
            o.buyer_id body.token body.network + body.amount :=
          creditBalance_balAmt o.buyer_id body.token body.network body.amount _
      _ = balAmt s o.buyer_id body.token body.network + body.amount := rfl
  · show (creditBalance o.buyer_id body.token body.network body.amount
        (markItemSold o.item_id (markOrderPaid o.id body.tx_hash s))).transactions ++
        [⟨o.buyer_id, some o.id, "deposit", body.amount, body.token,
          body.network, some body.tx_hash⟩] = _
    rw [(creditBalance_rest o.buyer_id body.token body.network body.amount _).1]
    rfl

/-- Witness for C10: on the concrete pending order with stored amount 5,
confirming with request amount 7 credits exactly 7. -/
theorem C10_deposit_credits_request_amount_witness :
    balAmt fxConfirmed 1 "USDT" "polygon" =
      balAmt fxStore 1 "USDT" "polygon" + 7
    ∧ fxConfirmed.transactions = fxStore.transactions ++
        [⟨1, some 1, "deposit", 7, "USDT", "polygon", some "0xhash"⟩]
    ∧ fxOrder.amount_usdt = 5 ∧ fxDeposit.amount = 7 ∧ (5 : ℚ) ≠ 7 :=
  ⟨(C10_deposit_credits_request_amount fxStore fxDeposit fxOutsider fxOrder
      fxConfirmed rfl rfl).1,
   (C10_deposit_credits_request_amount fxStore fxDeposit fxOutsider fxOrder
      fxConfirmed rfl rfl).2,
   rfl, rfl, by decide⟩

end Marketplace

namespace Marketplace

/-- Helper: a balance row matches the withdraw/deposit key exactly when
its three key fields equal the queried ones. -/
theorem balKey_iff (uid : Nat) (t n : String) (x : Balance) :
    balKey uid t n x = true ↔ x.user_id = uid ∧ x.token = t ∧ x.network = n := by
  simp [balKey, and_assoc]

/-- Helper: every error `withdraw` raises carries status 400. -/
theorem withdraw_error_status (b : WithdrawRequest) (u : AuthUser) (s : Store)
    (e : HttpError) (h : withdraw b u s = .error e) : e.status = 400 := by
  simp only [withdraw] at h
  split at h
  · cases h; rfl
  split at h
  · cases h; rfl
  split at h
  · cases h; rfl
  split at h
  · cases h; rfl
  split at h
  · cases h; rfl
  · cases h

/-- Helper: a successful `withdraw` found a sufficient balance row and
performed exactly the debit and the ledger append. -/
theorem withdraw_ok_inv (b : WithdrawRequest) (u : AuthUser) (s s' : Store)
    (h : withdraw b u s = .ok s') :
    ∃ bal, findBalance s u.user_id b.token b.network = some bal
      ∧ b.amount ≤ bal.amount
      ∧ s' = { s with
          balances := s.balances.map (fun x =>
            if balKey u.user_id b.token b.network x then
              { x with amount := x.amount - b.amount }
            else x),
          transactions := s.transactions ++
            [⟨u.user_id, none, "withdrawal", b.amount, b.token, b.network, none⟩] } := by
  simp only [withdraw] at h
  split at h
  · cases h
  split at h
  · cases h
  split at h
  · cases h
  split at h
  · cases h
  next bal hbal =>
    split at h
    · cases h
    next hge =>
      cases h
      exact ⟨bal, hbal, le_of_not_lt hge, rfl⟩

/-- Helper: the debit map preserves the key fields of every row. -/
theorem debit_fields (uid : Nat) (t n : String) (amt : ℚ) (x : Balance) :
    (if balKey uid t n x then { x with amount := x.amount - amt } else x).user_id = x.user_id
    ∧ (if balKey uid t n x then { x with amount := x.amount - amt } else x).token = x.token
    ∧ (if balKey uid t n x then { x with amount := x.amount - amt } else x).network = x.network := by
  cases h : balKey uid t n x <;> simp

/-- Helper: the debit map preserves key-uniqueness of the balances
table. -/
theorem debit_preserves_unique (uid : Nat) (t n : String) (amt : ℚ)
    (l : List Balance) (h : balancesKeyUnique l) :
    balancesKeyUnique (l.map (fun x =>
      if balKey uid t n x then { x with amount := x.amount - amt } else x)) := by
  unfold balancesKeyUnique at h ⊢
  rw [List.pairwise_map]
  refine h.imp ?_
  intro a c hac hcontra
  apply hac
  obtain ⟨ha1, ha2, ha3⟩ := debit_fields uid t n amt a
  obtain ⟨hc1, hc2, hc3⟩ := debit_fields uid t n amt c
  rw [ha1, ha2, ha3, hc1, hc2, hc3] at hcontra
  exact hcontra

/-- Helper: with a key-unique nonnegative balances table, debiting at
most the amount of the (unique) matching row keeps every row
nonnegative. -/
theorem debit_nonneg (uid : Nat) (t n : String) (amt : ℚ) :
    ∀ l : List Balance, balancesKeyUnique l → (∀ x ∈ l, 0 ≤ x.amount) →
    ∀ b, l.find? (balKey uid t n) = some b → amt ≤ b.amount →
    ∀ x ∈ l.map (fun x =>
      if balKey uid t n x then { x with amount := x.amount - amt } else x),
      0 ≤ x.amount := by
  intro l
  induction l with
  | nil =>
    intro _ _ b hb
    cases hb
  | cons a tl ih =>
    intro huniq hnn b hb hle x hx
    obtain ⟨hrel, htail⟩ := List.pairwise_cons.mp huniq
    rw [List.map_cons] at hx
    cases hpa : balKey uid t n a
    · rw [List.find?_cons_of_neg _ (by simp [hpa])] at hb
      rcases List.mem_cons.mp hx with hxa | hxtl
      · subst hxa
        simp only [hpa, Bool.false_eq_true, if_false]
        exact hnn a (List.mem_cons_self a tl)
      · exact ih htail (fun y hy => hnn y (List.mem_cons_of_mem a hy)) b hb hle x hxtl
    · rw [List.find?_cons_of_pos _ hpa] at hb
      injection hb with hba
      subst hba
      have htlkeys : ∀ y ∈ tl, balKey uid t n y = false := by
        intro y hy
        cases hpy : balKey uid t n y
        · rfl
        · obtain ⟨ha1, ha2, ha3⟩ := (balKey_iff uid t n a).mp hpa
          obtain ⟨hy1, hy2, hy3⟩ := (balKey_iff uid t n y).mp hpy
          exact absurd ⟨ha1.trans hy1.symm, ha2.trans hy2.symm, ha3.trans hy3.symm⟩
            (hrel y hy)
      rcases List.mem_cons.mp hx with hxa | hxtl
      · subst hxa
        have hnna := hnn a (List.mem_cons_self a tl)
        simp only [hpa, if_true]
        linarith
      · obtain ⟨y, hy, hyx⟩ := List.mem_map.mp hxtl
        rw [htlkeys y hy] at hyx
        simp only [Bool.false_eq_true, if_false] at hyx
        subst hyx
        exact hnn y (List.mem_cons_of_mem a hy)

/-- Helper: one withdraw request, successful or rejected, preserves
key-uniqueness and nonnegativity of the balances table. -/
theorem storeAfterWithdraw_inv (b : WithdrawRequest) (u : AuthUser) (s : Store)
    (huniq : balancesKeyUnique s.balances) (hnn : ∀ x ∈ s.balances, 0 ≤ x.amount) :
    balancesKeyUnique (storeAfterWithdraw b u s).balances
    ∧ ∀ x ∈ (storeAfterWithdraw b u s).balances, 0 ≤ x.amount := by
  unfold storeAfterWithdraw
  cases hw : withdraw b u s with
  | error e => exact ⟨huniq, hnn⟩
  | ok s' =>
    obtain ⟨bal, hbal, hle, rfl⟩ := withdraw_ok_inv b u s s' hw
    constructor
    · exact debit_preserves_unique _ _ _ _ s.balances huniq
    · exact debit_nonneg _ _ _ _ s.balances huniq hnn bal hbal hle

/-- C4: a withdrawal whose amount exceeds the balance at call time (or
for which no balance row exists) is rejected with status 400 and leaves
the store unchanged; a successful withdrawal debits the balance by
exactly the requested amount and appends exactly one withdrawal
transaction; and over any finite sequence of withdrawal requests a
key-unique nonnegative balances table stays nonnegative. -/
theorem C4_withdrawal_never_overdraws (s : Store) (u : AuthUser)
    (b : WithdrawRequest) (s' : Store) (s0 : Store)
    (reqs : List (AuthUser × WithdrawRequest)) :
    ((findBalance s u.user_id b.token b.network = none ∨
      (∃ bal, findBalance s u.user_id b.token b.network = some bal
        ∧ bal.amount < b.amount)) →
      errStatus (withdraw b u s) = some 400 ∧ storeAfterWithdraw b u s = s)
    ∧ (withdraw b u s = .ok s' →
      ∃ bal, findBalance s u.user_id b.token b.network = some bal
        ∧ b.amount ≤ bal.amount
        ∧ balAmt s' u.user_id b.token b.network = bal.amount - b.amount
        ∧ s'.transactions = s.transactions ++
            [⟨u.user_id, none, "withdrawal", b.amount, b.token, b.network, none⟩]
        ∧ s'.orders = s.orders ∧ s'.items = s.items)
    ∧ (balancesKeyUnique s0.balances → (∀ x ∈ s0.balances, 0 ≤ x.amount) →
      ∀ x ∈ (runWithdrawals reqs s0).balances, 0 ≤ x.amount) := by
  refine ⟨?_, ?_, ?_⟩
  · intro hin
    cases hw : withdraw b u s with
    | error e =>
      refine ⟨?_, ?_⟩
      · simp only [errStatus, withdraw_error_status b u s e hw]
      · simp only [storeAfterWithdraw, hw]
    | ok s2 =>
      exfalso
      obtain ⟨bal, hbal, hle, _⟩ := withdraw_ok_inv b u s s2 hw
      rcases hin with hn | ⟨bal2, hbal2, hlt⟩
      · rw [hn] at hbal
        cases hbal
      · rw [hbal2] at hbal
        injection hbal with hbb
        subst hbb
        exact absurd hlt (not_lt.mpr hle)
  · intro hw
    obtain ⟨bal, hbal, hle, rfl⟩ := withdraw_ok_inv b u s s' hw
    have hpb : balKey u.user_id b.token b.network bal = true := List.find?_some hbal
    refine ⟨bal, hbal, hle, ?_, rfl, rfl, rfl⟩
    have hbal' : s.balances.find? (balKey u.user_id b.token b.network) = some bal := hbal
    simp [balAmt, findBalance,
      find?_map_of_pred_inv _ _
        (fun x => balKey_update_inv u.user_id b.token b.network (· - b.amount) x),
      hbal', hpb]
  · induction reqs generalizing s0 with
    | nil =>
      intro _ h2
      simpa [runWithdrawals] using h2
    | cons r rest ih =>
      intro h1 h2
      have hstep := storeAfterWithdraw_inv r.2 r.1 s0 h1 h2
      have : runWithdrawals (r :: rest) s0 =
          runWithdrawals rest (storeAfterWithdraw r.2 r.1 s0) := rfl
      rw [this]
      exact ih _ hstep.1 hstep.2

/-- Witness for C4: on the concrete balance of 10, withdrawing 40 is
rejected with 400 and no effect, and two consecutive requests (one
success, one rejection) leave every balance nonnegative. -/
theorem C4_withdrawal_never_overdraws_witness :
    (errStatus (withdraw fxWithdrawBig fxWUser fxWalletStore) = some 400
      ∧ storeAfterWithdraw fxWithdrawBig fxWUser fxWalletStore = fxWalletStore)
    ∧ (∀ x ∈ (runWithdrawals
        [(fxWUser, fxWithdraw), (fxWUser, fxWithdrawBig)] fxWalletStore).balances,
        0 ≤ x.amount) :=
  ⟨(C4_withdrawal_never_overdraws fxWalletStore fxWUser fxWithdrawBig fxWalletStore
      fxWalletStore []).1
      (Or.inr ⟨fxBalance, rfl, by decide⟩),
   (C4_withdrawal_never_overdraws fxWalletStore fxWUser fxWithdrawBig fxWalletStore
      fxWalletStore [(fxWUser, fxWithdraw), (fxWUser, fxWithdrawBig)]).2.2
      (by unfold balancesKeyUnique; exact List.pairwise_singleton _ _)
      (by
        intro x hx
        rcases List.mem_cons.mp hx with hxb | hxn
        · subst hxb
          decide
        · cases hxn)⟩

end Marketplace

namespace Pricing

/-- Helper: `lexLe` is reflexive. -/
theorem lexLe_refl (a : ℚ × ℚ) : lexLe a a = true := by
  simp [lexLe]

/-- Helper: strict lexicographic order implies the non-strict one. -/
theorem lexLt_le (a b : ℚ × ℚ) (h : lexLt a b = true) : lexLe a b = true := by
  simp only [lexLt, Bool.or_eq_true, Bool.and_eq_true, decide_eq_true_eq,
    beq_iff_eq] at h
  simp only [lexLe, Bool.or_eq_true, Bool.and_eq_true, decide_eq_true_eq, beq_iff_eq]
  rcases h with h | ⟨h1, h2⟩
  · exact Or.inl h
  · exact Or.inr ⟨h1, le_of_lt h2⟩

/-- Helper: failure of strict lexicographic order reverses the
non-strict one. -/
theorem not_lexLt_le (a b : ℚ × ℚ) (h : lexLt a b = false) : lexLe b a = true := by
  have h' : ¬ (lexLt a b = true) := by
    simp [h]
  simp only [lexLt, Bool.or_eq_true, Bool.and_eq_true, decide_eq_true_eq,
    beq_iff_eq] at h'
  push_neg at h'
  obtain ⟨h1, h2⟩ := h'
  simp only [lexLe, Bool.or_eq_true, Bool.and_eq_true, decide_eq_true_eq, beq_iff_eq]
  rcases lt_or_eq_of_le h1 with hlt | heq
  · exact Or.inl hlt
  · exact Or.inr ⟨heq, h2 heq.symm⟩

/-- Helper: `lexLe` is transitive. -/
theorem lexLe_trans (a b c : ℚ × ℚ) (h1 : lexLe a b = true) (h2 : lexLe b c = true) :
    lexLe a c = true := by
  simp only [lexLe, Bool.or_eq_true, Bool.and_eq_true, decide_eq_true_eq,
    beq_iff_eq] at h1 h2 ⊢
  rcases h1 with h1 | ⟨h1a, h1b⟩
  · rcases h2 with h2 | ⟨h2a, h2b⟩
    · exact Or.inl (h1.trans h2)
    · exact Or.inl (h2a ▸ h1)
  · rcases h2 with h2 | ⟨h2a, h2b⟩
    · exact Or.inl (h1a ▸ h2)
    · exact Or.inr ⟨h1a.trans h2a, h1b.trans h2b⟩

/-- Helper: the intent normalization marks a listing "sell" (resp.
"buy") exactly when the declarative predicates do. -/
theorem intentNorm_side (kvs : List (String × JVal)) :
    ((intentNorm (objGet kvs "intent") == some "sell") = isSellIntent (.jobj kvs))
    ∧ ((intentNorm (objGet kvs "intent") == some "buy") = isBuyIntent (.jobj kvs)) := by
  cases hint : objGet kvs "intent" with
  | none => simp [intentNorm, isSellIntent, isBuyIntent, hint]
  | some v =>
    cases v with
    | jnull => simp [intentNorm, isSellIntent, isBuyIntent, hint]
    | jbool b =>
      cases b <;> simp [intentNorm, isSellIntent, isBuyIntent, hint]
    | jint n =>
      by_cases hn : (n == 0) = true <;>
        simp [intentNorm, isSellIntent, isBuyIntent, hint, hn]
    | jfloat q => simp [intentNorm, isSellIntent, isBuyIntent, hint]
    | jstr st => simp [intentNorm, isSellIntent, isBuyIntent, hint]
    | jarr xs => simp [intentNorm, isSellIntent, isBuyIntent, hint]
    | jobj okvs => simp [intentNorm, isSellIntent, isBuyIntent, hint]

/-- Helper: when the partition loop processes a listing without raising,
its computed side agrees with the declarative intent predicates and its
price with `listingPrice`. -/
theorem listingSide_ok (lst : JVal) (price : Price) (side : Option String)
    (hls : listingSide lst = .ok (price, side)) :
    listingPrice lst = price
    ∧ (side == some "sell") = isSellIntent lst
    ∧ (side == some "buy") = isBuyIntent lst := by
  cases lst with
  | jobj kvs =>
    cases hcur : currenciesOf kvs with
    | jobj ckvs =>
      simp only [listingSide, hcur] at hls
      injection hls with hpair
      injection hpair with hp hs
      subst hp
      subst hs
      refine ⟨?_, (intentNorm_side kvs).1, (intentNorm_side kvs).2⟩
      simp only [listingPrice, listingSide, hcur]
    | jnull =>
      have herr : listingSide (JVal.jobj kvs) = .error () := by
        simp only [listingSide, hcur]
      rw [herr] at hls
      cases hls
    | jbool b =>
      have herr : listingSide (JVal.jobj kvs) = .error () := by
        simp only [listingSide, hcur]
      rw [herr] at hls
      cases hls
    | jint n =>
      have herr : listingSide (JVal.jobj kvs) = .error () := by
        simp only [listingSide, hcur]
      rw [herr] at hls
      cases hls
    | jfloat q =>
      have herr : listingSide (JVal.jobj kvs) = .error () := by
        simp only [listingSide, hcur]
      rw [herr] at hls
      cases hls
    | jstr st =>
      have herr : listingSide (JVal.jobj kvs) = .error () := by
        simp only [listingSide, hcur]
      rw [herr] at hls
      cases hls
    | jarr xs =>
      have herr : listingSide (JVal.jobj kvs) = .error () := by
        simp only [listingSide, hcur]
      rw [herr] at hls
      cases hls
  | jnull => cases hls
  | jbool b => cases hls
  | jint n => cases hls
  | jfloat q => cases hls
  | jstr st => cases hls
  | jarr xs => cases hls

end Pricing

namespace Pricing

/-- Helper: the imperative partition loop yields exactly the sells and
buys selected by the declarative intent predicates, with their extracted
prices, in order. -/
theorem partition_filter : ∀ (l : List JVal) (sells buys : List Price),
    partitionListings l = .ok (sells, buys) →
    sells = (l.filter isSellIntent).map listingPrice
    ∧ buys = (l.filter isBuyIntent).map listingPrice := by
  intro l
  induction l with
  | nil =>
    intro sells buys h
    injection h with hpair
    injection hpair with hs hb
    subst hs
    subst hb
    exact ⟨rfl, rfl⟩
  | cons lst rest ih =>
    intro sells buys h
    unfold partitionListings at h
    split at h
    next e heq => cases h
    next price side heq =>
      split at h
      next e heq2 => cases h
      next ss bs heq2 =>
        obtain ⟨hprice, hsell, hbuy⟩ := listingSide_ok lst price side heq
        obtain ⟨ihs, ihb⟩ := ih ss bs heq2
        simp only [List.filter_cons]
        cases hs : (side == some "sell")
        · cases hb : (side == some "buy")
          · rw [hs, hb] at h
            simp only [Bool.false_eq_true, if_false] at h
            injection h with hpair
            injection hpair with h1 h2
            subst h1
            subst h2
            rw [← hsell, ← hbuy, hs, hb]
            simp only [Bool.false_eq_true, if_false]
            exact ⟨ihs, ihb⟩
          · rw [hs, hb] at h
            simp only [Bool.false_eq_true, if_false, if_true] at h
            injection h with hpair
            injection hpair with h1 h2
            subst h1
            subst h2
            rw [← hsell, ← hbuy, hs, hb]
            simp only [Bool.false_eq_true, if_false, if_true, List.map_cons, hprice]
            exact ⟨ihs, by rw [ihb]⟩
        · rw [hs] at h
          simp only [if_true] at h
          injection h with hpair
          injection hpair with h1 h2
          subst h1
          subst h2
          rw [← hsell, ← hbuy, hs]
          have hb : (side == some "buy") = false := by
            have := (beq_iff_eq.mp hs)
            subst this
            rfl
          rw [hb]
          simp only [Bool.false_eq_true, if_false, if_true, List.map_cons, hprice]
          exact ⟨by rw [ihs], ihb⟩

/-- Helper: the fold of Python's `min(..., key=sort_key)` returns an
element of the candidates whose key is lexicographically at most the
seed key and the key of every list element. -/
theorem minFold_spec : ∀ (l : List Price) (best : Price) (bk : ℚ × ℚ) (m : Price),
    sortKey best = .ok bk → minFold l best bk = .ok m →
    (m = best ∨ m ∈ l)
    ∧ ∃ km, sortKey m = .ok km ∧ lexLe km bk = true
      ∧ ∀ q ∈ l, ∃ kq, sortKey q = .ok kq ∧ lexLe km kq = true := by
  intro l
  induction l with
  | nil =>
    intro best bk m hb h
    injection h with hm
    subst hm
    exact ⟨Or.inl rfl, bk, hb, lexLe_refl bk, fun q hq => absurd hq (by simp)⟩
  | cons x xs ih =>
    intro best bk m hb h
    unfold minFold at h
    split at h
    next e heq => cases h
    next kx heq =>
      split at h
      next hlt =>
        obtain ⟨hmem, km, hkm, hle, hall⟩ := ih x kx m heq h
        refine ⟨?_, km, hkm, ?_, ?_⟩
        · rcases hmem with hmb | hmx
          · exact Or.inr (hmb ▸ List.mem_cons_self x xs)
          · exact Or.inr (List.mem_cons_of_mem x hmx)
        · exact lexLe_trans km kx bk hle (lexLt_le kx bk hlt)
        · intro q hq
          rcases List.mem_cons.mp hq with hqx | hqxs
          · subst hqx
            exact ⟨kx, heq, hle⟩
          · exact hall q hqxs
      next hlt =>
        have hlt' : lexLt kx bk = false := by
          cases hv : lexLt kx bk
          · rfl
          · exact absurd hv hlt
        obtain ⟨hmem, km, hkm, hle, hall⟩ := ih best bk m hb h
        refine ⟨?_, km, hkm, hle, ?_⟩
        · rcases hmem with hmb | hmx
          · exact Or.inl hmb
          · exact Or.inr (List.mem_cons_of_mem x hmx)
        · intro q hq
          rcases List.mem_cons.mp hq with hqx | hqxs
          · subst hqx
            exact ⟨kx, heq, lexLe_trans km bk kx hle (not_lexLt_le kx bk hlt')⟩
          · exact hall q hqxs

/-- Helper: the fold of Python's `max(..., key=sort_key)`, mirrored. -/
theorem maxFold_spec : ∀ (l : List Price) (best : Price) (bk : ℚ × ℚ) (m : Price),
    sortKey best = .ok bk → maxFold l best bk = .ok m →
    (m = best ∨ m ∈ l)
    ∧ ∃ km, sortKey m = .ok km ∧ lexLe bk km = true
      ∧ ∀ q ∈ l, ∃ kq, sortKey q = .ok kq ∧ lexLe kq km = true := by
  intro l
  induction l with
  | nil =>
    intro best bk m hb h
    injection h with hm
    subst hm
    exact ⟨Or.inl rfl, bk, hb, lexLe_refl bk, fun q hq => absurd hq (by simp)⟩
  | cons x xs ih =>
    intro best bk m hb h
    unfold maxFold at h
    split at h
    next e heq => cases h
    next kx heq =>
      split at h
      next hlt =>
        obtain ⟨hmem, km, hkm, hle, hall⟩ := ih x kx m heq h
        refine ⟨?_, km, hkm, ?_, ?_⟩
        · rcases hmem with hmb | hmx
          · exact Or.inr (hmb ▸ List.mem_cons_self x xs)
          · exact Or.inr (List.mem_cons_of_mem x hmx)
        · exact lexLe_trans bk kx km (lexLt_le bk kx hlt) hle
        · intro q hq
          rcases List.mem_cons.mp hq with hqx | hqxs
          · subst hqx
            exact ⟨kx, heq, hle⟩
          · exact hall q hqxs
      next hlt =>
        have hlt' : lexLt bk kx = false := by
          cases hv : lexLt bk kx
          · rfl
          · exact absurd hv hlt
        obtain ⟨hmem, km, hkm, hle, hall⟩ := ih best bk m hb h
        refine ⟨?_, km, hkm, hle, ?_⟩
        · rcases hmem with hmb | hmx
          · exact Or.inl hmb
          · exact Or.inr (List.mem_cons_of_mem x hmx)
        · intro q hq
          rcases List.mem_cons.mp hq with hqx | hqxs
          · subst hqx
            exact ⟨kx, heq, lexLe_trans kx bk km (not_lexLt_le bk kx hlt') hle⟩
          · exact hall q hqxs

/-- Helper: a computed lowest sell is a member of the sells list with a
key lexicographically at most every sell's key. -/
theorem lowestSell_spec (sells : List Price) (p : Price)
    (h : lowestSell sells = .ok (some p)) :
    p ∈ sells ∧ ∀ q ∈ sells, ∃ kp kq, sortKey p = .ok kp ∧ sortKey q = .ok kq
      ∧ lexLe kp kq = true := by
  cases sells with
  | nil =>
    injection h with h'
    cases h'
  | cons hd t =>
    simp only [lowestSell] at h
    split at h
    next e heq => cases h
    next kh heq =>
      split at h
      next e heq2 => cases h
      next m heq2 =>
        injection h with h'
        injection h' with h''
        subst h''
        obtain ⟨hmem, km, hkm, hle, hall⟩ := minFold_spec t hd kh _ heq heq2
        constructor
        · rcases hmem with hmb | hmx
          · exact hmb ▸ List.mem_cons_self hd t
          · exact List.mem_cons_of_mem hd hmx
        · intro q hq
          rcases List.mem_cons.mp hq with hqh | hqt
          · subst hqh
            exact ⟨km, kh, hkm, heq, hle⟩
          · obtain ⟨kq, hkq, hlekq⟩ := hall q hqt
            exact ⟨km, kq, hkm, hkq, hlekq⟩

/-- Helper: a computed highest buy is a member of the buys list with a
key lexicographically at least every buy's key. -/
theorem highestBuy_spec (buys : List Price) (p : Price)
    (h : highestBuy buys = .ok (some p)) :
    p ∈ buys ∧ ∀ q ∈ buys, ∃ kp kq, sortKey p = .ok kp ∧ sortKey q = .ok kq
      ∧ lexLe kq kp = true := by
  cases buys with
  | nil =>
    injection h with h'
    cases h'
  | cons hd t =>
    simp only [highestBuy] at h
    split at h
    next e heq => cases h
    next kh heq =>
      split at h
      next e heq2 => cases h
      next m heq2 =>
        injection h with h'
        injection h' with h''
        subst h''
        obtain ⟨hmem, km, hkm, hle, hall⟩ := maxFold_spec t hd kh _ heq heq2
        constructor
        · rcases hmem with hmb | hmx
          · exact hmb ▸ List.mem_cons_self hd t
          · exact List.mem_cons_of_mem hd hmx
        · intro q hq
          rcases List.mem_cons.mp hq with hqh | hqt
          · subst hqh
            exact ⟨km, kh, hkm, heq, hle⟩
          · obtain ⟨kq, hkq, hlekq⟩ := hall q hqt
            exact ⟨km, kq, hkm, hkq, hlekq⟩

/-- Helper: inversion of a successful normalizer run into its partition
and two extreme computations. -/
theorem market_core_inv (data : JVal) (res : ListingsResult)
    (h : market_listings_core data = .ok res) :
    partitionListings (extractListings data) = .ok (res.sells, res.buys)
    ∧ lowestSell res.sells = .ok res.lowest_sell
    ∧ highestBuy res.buys = .ok res.highest_buy
    ∧ res.sell_count = res.sells.length ∧ res.buy_count = res.buys.length := by
  unfold market_listings_core at h
  split at h
  next e heq => cases h
  next sells buys heq =>
    split at h
    next e heq2 => cases h
    next ls heq2 =>
      split at h
      next e heq3 => cases h
      next hb heq3 =>
        injection h with h'
        subst h'
        exact ⟨heq, heq2, heq3, rfl, rfl⟩

end Pricing

namespace Pricing

/-- C6 counterexample: the source substitutes the sentinel `10**9` (not
plus infinity) for a missing component, so on two sell listings — one
with keys `2·10^9`, one with no keys — the normalizer returns the
keys-less price as `lowest_sell` although under the claim's
plus-infinity reading the other price is strictly smaller; and a listing
whose intent is the boolean `true` is counted as a sell rather than
dropped, because Python bools are ints. -/
theorem C6_sentinel_and_bool_intent_diverge :
    (market_listings_core sentinelPayload).map (fun r => (r.sells, r.lowest_sell)) =
      .ok ([fxPriceA, fxPriceB], some fxPriceB)
    ∧ infLexLt fxPriceA fxPriceB = true
    ∧ (market_listings_core boolIntentPayload).map
        (fun r => (r.sell_count, r.buy_count)) = .ok (1, 0) := by
  exact ⟨rfl, rfl, rfl⟩

/-- C6 (amended): for every decoded payload the normalizer processes
without raising, the extracted listings are partitioned into buys
(intent integer 0 — including boolean false — or string "buy") and
sells (any other integer — including boolean true — or string "sell"),
listings with any other intent value are dropped; `lowest_sell` is a
sell whose (keys, metal) key, with a missing or null component replaced
by the sentinel `10^9`, is lexicographically at most every sell's key,
and `highest_buy` symmetrically at least every buy's key, each `None`
exactly when its side is empty; on the §8 example payload the result is
1 buy, 1 sell, lowest_sell `{keys: None, metal: 5}` and highest_buy
`{keys: 1, metal: 10}`. -/
theorem C6_normalizer_partition_and_extremes (data : JVal) (res : ListingsResult)
    (h : market_listings_core data = .ok res) :
    res.sells = ((extractListings data).filter isSellIntent).map listingPrice
    ∧ res.buys = ((extractListings data).filter isBuyIntent).map listingPrice
    ∧ res.sell_count = res.sells.length ∧ res.buy_count = res.buys.length
    ∧ (res.sells = [] → res.lowest_sell = none)
    ∧ (∀ p, res.lowest_sell = some p → p ∈ res.sells ∧
        ∀ q ∈ res.sells, ∃ kp kq, sortKey p = .ok kp ∧ sortKey q = .ok kq
          ∧ lexLe kp kq = true)
    ∧ (res.buys = [] → res.highest_buy = none)
    ∧ (∀ p, res.highest_buy = some p → p ∈ res.buys ∧
        ∀ q ∈ res.buys, ∃ kp kq, sortKey p = .ok kp ∧ sortKey q = .ok kq
          ∧ lexLe kq kp = true)
    ∧ (market_listings_core examplePayload).map
        (fun r => (r.sell_count, r.buy_count, r.lowest_sell, r.highest_buy)) =
        .ok (1, 1, some (none, some (.jint 5)), some (some (.jint 1), some (.jint 10))) := by
  obtain ⟨hpart, hls, hhb, hsc, hbc⟩ := market_core_inv data res h
  obtain ⟨hsells, hbuys⟩ := partition_filter (extractListings data) res.sells res.buys hpart
  refine ⟨hsells, hbuys, hsc, hbc, ?_, ?_, ?_, ?_, rfl⟩
  · intro hempty
    rw [hempty] at hls
    injection hls with h'
    exact h'.symm
  · intro p hp
    rw [hp] at hls
    exact lowestSell_spec res.sells p hls
  · intro hempty
    rw [hempty] at hhb
    injection hhb with h'
    exact h'.symm
  · intro p hp
    rw [hp] at hhb
    exact highestBuy_spec res.buys p hhb

/-- Witness for C6: the amended theorem applied to the §8 example
payload and its concrete normalized result. -/
theorem C6_normalizer_partition_and_extremes_witness :
    fxExampleResult.sells =
      ((extractListings examplePayload).filter isSellIntent).map listingPrice
    ∧ (market_listings_core examplePayload).map
        (fun r => (r.sell_count, r.buy_count, r.lowest_sell, r.highest_buy)) =
        .ok (1, 1, some (none, some (.jint 5)), some (some (.jint 1), some (.jint 10))) :=
  ⟨(C6_normalizer_partition_and_extremes examplePayload fxExampleResult rfl).1,
   (C6_normalizer_partition_and_extremes examplePayload fxExampleResult
      rfl).2.2.2.2.2.2.2.2⟩

end Pricing
